import Mathlib

/-!
Verification of the temporal calibration and spatial matching pipeline of
georeference.py against its design document.

Time is embedded as integer nanoseconds (the resolution of the datetime64
values the script manipulates); longitude, latitude and elevation are exact
rationals.  Fallible steps return Except.  Each definition is translated from
the Python source (including the pandas library calls it relies on, whose
documented semantics are reproduced and noted in the doc comments).
-/

/-- One GPS fix of the track log: timestamp in integer nanoseconds and the
three coordinate values, as stored in the dataframe built by read_gpx. -/
structure TrackSample where
  t : ℤ
  lon : ℚ
  lat : ℚ
  elev : ℚ
deriving DecidableEq

/-- Failure outcomes of the run, named after the error taxonomy of the design
document.  The Python script has no named exception classes; a constructor
here stands for the concrete unnamed exception noted at its use site. -/
inductive GeoErr where
  | insufficientCalibrationData
  | unboundCoordinate
deriving DecidableEq

/-- Python builtin round applied to an exact rational: nearest integer with
ties going to the even integer.  In get_time_diff the argument fed to round is
microseconds divided by 1e5; for that range the float computed by Python is
exact at every tie and closer than any tie boundary elsewhere, so the rational
model coincides with the float behaviour. -/
def pyRound (q : ℚ) : ℤ :=
  if q - ⌊q⌋ < 1/2 then ⌊q⌋
  else if (1 : ℚ)/2 < q - ⌊q⌋ then ⌊q⌋ + 1
  else if ⌊q⌋ % 2 = 0 then ⌊q⌋ else ⌊q⌋ + 1

/-- The microseconds field of a pandas Timedelta holding v nanoseconds.
A Timedelta is normalised like a Python timedelta: days may be negative while
the remaining fields are nonnegative, so the microseconds field is the
sub-second microsecond part under flooring division and modulo.  The
sub-microsecond nanoseconds of v are not part of this field. -/
def tdMicroseconds (v : ℤ) : ℤ := (v % 1000000000) / 1000

/-- Lines 90 and 91 of georeference.py: compute
round(diff.microseconds / 1e5) * int(1e5) - diff.microseconds microseconds
and add it to the mean difference of v nanoseconds. -/
def roundToTenth (v : ℤ) : ℤ :=
  v + (pyRound ((tdMicroseconds v : ℚ) / 100000) * 100000 - tdMicroseconds v) * 1000

/-- Sum of the per pair differences camera time minus reference time, line 83
of georeference.py, in nanoseconds. -/
def sumDiffs (pairs : List (ℤ × ℤ)) : ℤ := (pairs.map (fun p => p.1 - p.2)).sum

/-- Line 86 of georeference.py: the pandas mean of the difference column.
Pandas stores the mean as a Timedelta of integer nanoseconds; any fractional
nanosecond of the exact rational mean is discarded (for every input used in a
theorem below all rounding conventions of that conversion agree, so taking the
floor is not a modelling choice that matters). -/
def meanDiffNs (pairs : List (ℤ × ℤ)) : ℤ :=
  ⌊(sumDiffs pairs : ℚ) / (pairs.length : ℚ)⌋

/-- get_time_diff, lines 64 to 93 of georeference.py, on the per pair
timestamps (camera, reference) in nanoseconds.  With zero pairs the pandas
mean of the empty column is NaT, its microseconds field is nan, and Python
round of nan raises ValueError, aborting the run before returning: that abort
is modelled as the error the design document names for this condition. -/
def get_time_diff (pairs : List (ℤ × ℤ)) : Except GeoErr ℤ :=
  if pairs.isEmpty then Except.error GeoErr.insufficientCalibrationData
  else Except.ok (roundToTenth (meanDiffNs pairs))

theorem pyRound_bound (q : ℚ) : |(pyRound q : ℚ) - q| ≤ 1/2 := by
  have hfl : (⌊q⌋ : ℚ) ≤ q := Int.floor_le q
  have hlt : q < (⌊q⌋ : ℚ) + 1 := Int.lt_floor_add_one q
  unfold pyRound
  split
  · rename_i h
    rw [abs_le]
    constructor <;> linarith
  · split
    · rename_i h1 h2
      rw [abs_le]
      push_cast
      constructor <;> linarith
    · rename_i h1 h2
      have he : q - (⌊q⌋ : ℚ) = 1/2 := le_antisymm (not_lt.mp h2) (not_lt.mp h1)
      split
      · rw [abs_le]
        constructor <;> linarith
      · rw [abs_le]
        push_cast
        constructor <;> linarith

theorem tdMicroseconds_of_mul_1000 (k : ℤ) :
    tdMicroseconds (1000 * k) = k % 1000000 := by
  unfold tdMicroseconds
  have h : (1000 * k) % 1000000000 = 1000 * (k % 1000000) := by
    have h0 := Int.mul_emod_mul_of_pos k 1000000 (show (0:ℤ) < 1000 by norm_num)
    norm_num at h0
    exact h0
  rw [h]
  exact Int.mul_ediv_cancel_left _ (by norm_num)

/-- On a whole number of microseconds, the rounding step of get_time_diff
produces a multiple of one tenth of a second that is at distance at most half
a step from its input. -/
theorem roundToTenth_spec (k : ℤ) :
    (100000000:ℤ) ∣ roundToTenth (1000 * k)
      ∧ 2 * |roundToTenth (1000 * k) - 1000 * k| ≤ 100000000 := by
  have hrw : roundToTenth (1000 * k)
      = 1000 * k + (pyRound (((k % 1000000 : ℤ) : ℚ) / 100000) * 100000 - k % 1000000) * 1000 := by
    unfold roundToTenth
    rw [tdMicroseconds_of_mul_1000]
  have habs : |pyRound (((k % 1000000 : ℤ) : ℚ) / 100000) * 100000 - k % 1000000| ≤ 50000 := by
    have hb := pyRound_bound (((k % 1000000 : ℤ) : ℚ) / 100000)
    have h2 : |(pyRound (((k % 1000000 : ℤ) : ℚ) / 100000) : ℚ) * 100000
        - ((k % 1000000 : ℤ) : ℚ)| ≤ 50000 := by
      have heq : (pyRound (((k % 1000000 : ℤ) : ℚ) / 100000) : ℚ) * 100000
          - ((k % 1000000 : ℤ) : ℚ)
          = ((pyRound (((k % 1000000 : ℤ) : ℚ) / 100000) : ℚ)
              - ((k % 1000000 : ℤ) : ℚ) / 100000) * 100000 := by
        ring
      rw [heq, abs_mul, show |(100000:ℚ)| = 100000 by norm_num]
      nlinarith [hb]
    exact_mod_cast h2
  have hdm := Int.ediv_add_emod k 1000000
  constructor
  · refine ⟨10 * (k / 1000000) + pyRound (((k % 1000000 : ℤ) : ℚ) / 100000), ?_⟩
    rw [hrw]
    linarith
  · rw [hrw]
    have heq2 : 1000 * k
          + (pyRound (((k % 1000000 : ℤ) : ℚ) / 100000) * 100000 - k % 1000000) * 1000
          - 1000 * k
        = (pyRound (((k % 1000000 : ℤ) : ℚ) / 100000) * 100000 - k % 1000000) * 1000 := by
      ring
    rw [heq2, abs_mul, show |(1000:ℤ)| = 1000 by norm_num]
    nlinarith [habs]

/-- C1 (as stated, refuted): three calibration pairs with differences 0, 0 and
0.1 s have exact mean offset 1/30 s; pandas stores 33333333 ns, the code
quantizes only the microseconds field and returns 333 ns, which is not a
multiple of the 0.1 s step, hence not the mean quantized to the nearest
multiple of the step (that would be 0). -/
theorem c1_counterexample :
    get_time_diff [(100000000, 0), (0, 0), (0, 0)] = Except.ok 333
      ∧ ¬ (100000000 ∣ (333:ℤ)) ∧ (333:ℤ) ≠ 0 := by
  refine ⟨?_, by decide, by decide⟩
  norm_num [get_time_diff, meanDiffNs, sumDiffs, roundToTenth, tdMicroseconds, pyRound]

/-- C1 (amended): for every non-empty list of calibration pairs whose mean
difference is a whole number of microseconds (1000 k nanoseconds), the
estimated offset is the mean quantized to a multiple of the 0.1 s step at
distance at most half a step (ties resolved to the even multiple); in
particular a raw mean of 0.137 s yields exactly 0.1 s.  When the mean has a
fractional microsecond remainder that remainder survives unquantized, as the
counterexample shows. -/
theorem c1_offset_quantization (pairs : List (ℤ × ℤ)) (k : ℤ)
    (hne : pairs ≠ [])
    (hmean : sumDiffs pairs = (pairs.length : ℤ) * (1000 * k)) :
    get_time_diff pairs = Except.ok (roundToTenth (1000 * k))
      ∧ (100000000:ℤ) ∣ roundToTenth (1000 * k)
      ∧ 2 * |roundToTenth (1000 * k) - 1000 * k| ≤ 100000000 := by
  have hlen : pairs.length ≠ 0 := fun h => hne (List.length_eq_zero.mp h)
  have hmean' : meanDiffNs pairs = 1000 * k := by
    unfold meanDiffNs
    rw [hmean]
    have hq : ((pairs.length : ℤ) : ℚ) ≠ 0 := by
      exact_mod_cast fun h => hlen (by exact_mod_cast h)
    have : (((pairs.length : ℤ) * (1000 * k) : ℤ) : ℚ) / (pairs.length : ℚ)
        = ((1000 * k : ℤ) : ℚ) := by
      push_cast
      field_simp
    rw [this, Int.floor_intCast]
  refine ⟨?_, roundToTenth_spec k⟩
  unfold get_time_diff
  rw [hmean']
  simp [List.isEmpty_iff, hne]

/-- Witness for c1_offset_quantization: one pair with difference 0.137 s. -/
theorem c1_offset_quantization_witness :
    ([((137000000:ℤ), (0:ℤ))] ≠ [])
      ∧ sumDiffs [(137000000, 0)] = (([((137000000:ℤ), (0:ℤ))].length : ℤ)) * (1000 * 137000)
      ∧ (get_time_diff [(137000000, 0)] = Except.ok (roundToTenth (1000 * 137000))
          ∧ (100000000:ℤ) ∣ roundToTenth (1000 * 137000)
          ∧ 2 * |roundToTenth (1000 * 137000) - 1000 * 137000| ≤ 100000000)
      ∧ roundToTenth (1000 * 137000) = 100000000 := by
  refine ⟨by decide, by norm_num [sumDiffs], ?_, ?_⟩
  · exact c1_offset_quantization [(137000000, 0)] 137000 (by decide) (by norm_num [sumDiffs])
  · norm_num [roundToTenth, tdMicroseconds, pyRound]

/-- C7: with zero calibration pairs the clock offset estimation fails (the
Python run aborts inside get_time_diff: round of the nan microseconds field of
NaT raises) and no offset value is returned; the design document names this
condition InsufficientCalibrationData. -/
theorem c7_insufficient_calibration :
    get_time_diff [] = Except.error GeoErr.insufficientCalibrationData := rfl

/-- Line 109 of georeference.py: coords.loc[timestamp] = values on the
accumulating dataframe.  An existing row with the same timestamp label is
overwritten in place, so the values of the later point win; a new timestamp
is appended at the end.  Duplicate labels never arise because every insertion
goes through this update. -/
def locSet : List TrackSample → TrackSample → List TrackSample
  | [], c => [c]
  | a :: tl, c => if a.t = c.t then c :: tl else a :: locSet tl c

/-- read_gpx, lines 96 to 113 of georeference.py: fold every track point of
the GPX file into the dataframe, in file order. -/
def read_gpx (pts : List TrackSample) : List TrackSample := pts.foldl locSet []

theorem locSet_find (acc : List TrackSample) (c : TrackSample) :
    (locSet acc c).find? (fun a => decide (a.t = c.t)) = some c := by
  induction acc with
  | nil => simp [locSet]
  | cons a tl ih =>
    unfold locSet
    by_cases h : a.t = c.t
    · simp [h]
    · rw [if_neg h, List.find?_cons_of_neg _ (by simp [h]), ih]

/-- C9 (as stated, refuted): two samples with the same timestamp; read_gpx
stores the values of the second sample, not the first. -/
theorem c9_counterexample :
    read_gpx [⟨0, 1, 1, 1⟩, ⟨0, 2, 2, 2⟩] = [⟨0, 2, 2, 2⟩]
      ∧ (⟨0, 2, 2, 2⟩ : TrackSample) ≠ ⟨0, 1, 1, 1⟩ := by
  refine ⟨rfl, ?_⟩
  intro h
  have : (2 : ℚ) = 1 := congrArg TrackSample.lon h
  norm_num at this

/-- C9 (amended): the reader keeps one row per timestamp at the position of
first encounter, but the stored values are those of the last-encountered
sample with that timestamp: after reading any point list ending in c, the row
found at timestamp c.t holds the values of c. -/
theorem c9_last_duplicate_wins (pts : List TrackSample) (c : TrackSample) :
    (read_gpx (pts ++ [c])).find? (fun a => decide (a.t = c.t)) = some c := by
  unfold read_gpx
  rw [List.foldl_append]
  simp only [List.foldl_cons, List.foldl_nil]
  exact locSet_find _ c

/-- Start of the resampling grid: the first timestamp floored to a multiple
of the step.  Pandas resample anchors bins at midnight of the first day
(origin start_day); for a step that divides one day evenly, as the 100
millisecond step of the script does, those bin edges are exactly the integer
multiples of the step, so flooring with the Euclidean modulo reproduces that
anchoring for every timestamp. -/
def gridStart (step t : ℤ) : ℤ := t - t % step

/-- Uniformly spaced timestamps: n points starting at s with spacing step. -/
def gridList (s step : ℤ) : ℕ → List ℤ
  | 0 => []
  | n + 1 => s :: gridList (s + step) step n

/-- The index produced by resample for data spanning [tmin, tmax]: bin labels
from the floored minimum, advancing by the step, up to the last label not
past tmax. -/
def resampleIndex (step tmin tmax : ℤ) : List ℤ :=
  gridList (gridStart step tmin) step (((tmax - gridStart step tmin) / step).toNat + 1)

/-- The samples that survive reindexing onto the grid (the asfreq step of the
resampler): exactly those whose timestamp is a multiple of the step, since
the grid consists of the multiples of the step covering the data range.
Samples off the grid contribute nothing to the dense track. -/
def gridAnchors (step : ℤ) (cs : List TrackSample) : List TrackSample :=
  cs.filter (fun c => decide (c.t % step = 0))

/-- Last anchor at or before g: the valid value that the linear fill uses on
the left of position g. -/
def lastAnchorLE (A : List TrackSample) (g : ℤ) : Option TrackSample :=
  (A.filter (fun c => decide (c.t ≤ g))).getLast?

/-- First anchor at or after g: the valid value used on the right. -/
def firstAnchorGE (A : List TrackSample) (g : ℤ) : Option TrackSample :=
  (A.filter (fun c => decide (g ≤ c.t))).head?

/-- Linear interpolation of one coordinate between times ta and tb. -/
def lerp1 (ta tb : ℤ) (va vb : ℚ) (g : ℤ) : ℚ :=
  va + (vb - va) * (((g : ℚ) - (ta : ℚ)) / ((tb : ℚ) - (ta : ℚ)))

/-- Linear interpolation of a full coordinate triple between two samples. -/
def lerpSample (a b : TrackSample) (g : ℤ) : ℚ × ℚ × ℚ :=
  (lerp1 a.t b.t a.lon b.lon g, lerp1 a.t b.t a.lat b.lat g,
    lerp1 a.t b.t a.elev b.elev g)

/-- Value of the dense track at grid timestamp g, reproducing asfreq followed
by interpolate with the default linear method: a grid point equal to an
anchor timestamp keeps that anchor values; between two anchors the positional
linear fill, which on the uniform grid equals linear interpolation in time;
before the first anchor the leading missing values are preserved (the default
forward limit direction); past the last anchor numpy interp clamps to the
last anchor values. -/
def denseAt (step : ℤ) (cs : List TrackSample) (g : ℤ) : Option (ℚ × ℚ × ℚ) :=
  match lastAnchorLE (gridAnchors step cs) g, firstAnchorGE (gridAnchors step cs) g with
  | none, _ => none
  | some a, none => some (a.lon, a.lat, a.elev)
  | some a, some b =>
    if a.t = g then some (a.lon, a.lat, a.elev)
    else if b.t = g then some (b.lon, b.lat, b.elev)
    else some (lerpSample a b g)

/-- Minimum of the dataframe timestamps, as the resampler takes it. -/
def trackMin (c : TrackSample) (rest : List TrackSample) : ℤ :=
  rest.foldl (fun m s => min m s.t) c.t

/-- Maximum of the dataframe timestamps, as the resampler takes it. -/
def trackMax (c : TrackSample) (rest : List TrackSample) : ℤ :=
  rest.foldl (fun m s => max m s.t) c.t

/-- Line 157 of georeference.py: resample("100L").interpolate() on the frame
returned by read_gpx, for a general positive step (the script uses 100 ms =
100000000 ns).  The dense track is the list of grid timestamps paired with
their optional coordinate triple; the empty frame resamples to the empty
frame. -/
def resample_interpolate (step : ℤ) : List TrackSample → List (ℤ × Option (ℚ × ℚ × ℚ))
  | [] => []
  | c :: rest =>
    (resampleIndex step (trackMin c rest) (trackMax c rest)).map
      (fun g => (g, denseAt step (c :: rest) g))

theorem gridList_mem {s step : ℤ} {n : ℕ} {x : ℤ} :
    x ∈ gridList s step n ↔ ∃ k : ℕ, k < n ∧ x = s + step * k := by
  induction n generalizing s with
  | zero => simp [gridList]
  | succ n ih =>
    simp only [gridList, List.mem_cons, ih]
    constructor
    · rintro (rfl | ⟨k, hk, rfl⟩)
      · exact ⟨0, Nat.succ_pos n, by simp⟩
      · exact ⟨k + 1, Nat.succ_lt_succ hk, by push_cast; ring⟩
    · rintro ⟨k, hk, rfl⟩
      cases k with
      | zero => left; simp
      | succ k =>
        right
        exact ⟨k, Nat.lt_of_succ_lt_succ hk, by push_cast; ring⟩

theorem gridList_head (s step : ℤ) (n : ℕ) :
    (gridList s step (n + 1)).head? = some s := rfl

theorem gridList_getLast (s step : ℤ) (n : ℕ) :
    (gridList s step (n + 1)).getLast? = some (s + step * n) := by
  induction n generalizing s with
  | zero => simp [gridList]
  | succ n ih =>
    have h1 : gridList s step (n + 1 + 1) = s :: gridList (s + step) step (n + 1) := rfl
    have h2 : gridList (s + step) step (n + 1)
        = (s + step) :: gridList (s + step + step) step n := rfl
    rw [h1, h2, List.getLast?_cons_cons, ← h2, ih]
    congr 1
    push_cast
    ring

theorem gridList_chain (s step : ℤ) (n : ℕ) :
    List.Chain' (fun a b => b = a + step) (gridList s step n) := by
  induction n generalizing s with
  | zero => exact List.chain'_nil
  | succ n ih =>
    cases n with
    | zero => simp [gridList]
    | succ m =>
      have h1 : gridList s step (m + 1 + 1)
          = s :: (s + step) :: gridList (s + step + step) step m := rfl
      rw [h1, List.chain'_cons]
      exact ⟨rfl, ih (s + step)⟩

theorem gridStart_le (step t : ℤ) (h : 0 < step) : gridStart step t ≤ t := by
  unfold gridStart
  have := Int.emod_nonneg t (ne_of_gt h)
  linarith

theorem lt_gridStart_add (step t : ℤ) (h : 0 < step) : t < gridStart step t + step := by
  unfold gridStart
  have := Int.emod_lt_of_pos t h
  linarith

theorem gridStart_of_aligned (step t : ℤ) (h : t % step = 0) : gridStart step t = t := by
  unfold gridStart
  rw [h]
  ring

theorem mem_of_getLast?_some {α : Type} {l : List α} {z : α}
    (h : l.getLast? = some z) : z ∈ l := by
  rcases List.mem_getLast?_eq_getLast (Option.mem_def.mpr h) with ⟨hne, rfl⟩
  exact List.getLast_mem hne

theorem foldl_min_eq (l : List TrackSample) (m : ℤ) (h : ∀ x ∈ l, m ≤ x.t) :
    l.foldl (fun m s => min m s.t) m = m := by
  induction l generalizing m with
  | nil => rfl
  | cons a tl ih =>
    simp only [List.foldl_cons]
    rw [min_eq_left (h a (List.mem_cons_self a tl))]
    exact ih m (fun x hx => h x (List.mem_cons_of_mem a hx))

theorem foldl_max_le (l : List TrackSample) (m z : ℤ) (hm : m ≤ z)
    (h : ∀ x ∈ l, x.t ≤ z) :
    l.foldl (fun m s => max m s.t) m ≤ z := by
  induction l generalizing m with
  | nil => exact hm
  | cons a tl ih =>
    simp only [List.foldl_cons]
    exact ih _ (max_le hm (h a (List.mem_cons_self a tl)))
      (fun x hx => h x (List.mem_cons_of_mem a hx))

theorem base_le_foldl_max (l : List TrackSample) (m : ℤ) :
    m ≤ l.foldl (fun m s => max m s.t) m := by
  induction l generalizing m with
  | nil => exact le_refl m
  | cons a tl ih =>
    simp only [List.foldl_cons]
    exact le_trans (le_max_left m a.t) (ih (max m a.t))

theorem le_foldl_max_of_mem (l : List TrackSample) (m : ℤ) (x : TrackSample)
    (hx : x ∈ l) :
    x.t ≤ l.foldl (fun m s => max m s.t) m := by
  induction l generalizing m with
  | nil => cases hx
  | cons a tl ih =>
    simp only [List.foldl_cons]
    rcases List.mem_cons.mp hx with rfl | hx2
    · exact le_trans (le_max_right m x.t) (base_le_foldl_max tl _)
    · exact ih _ hx2

theorem pairwise_le_getLast (l : List TrackSample) (z : TrackSample)
    (hs : List.Pairwise (fun a b => a.t < b.t) l) (hz : l.getLast? = some z) :
    ∀ x ∈ l, x.t ≤ z.t := by
  induction l with
  | nil => simp at hz
  | cons a tl ih =>
    intro x hx
    cases tl with
    | nil =>
      have hza : a = z := by simpa using hz
      have hxa : x = a := by simpa using hx
      rw [hxa, ← hza]
    | cons b tl2 =>
      rw [List.getLast?_cons_cons] at hz
      rcases List.mem_cons.mp hx with rfl | hx2
      · have hzmem : z ∈ b :: tl2 := mem_of_getLast?_some hz
        exact le_of_lt ((List.pairwise_cons.mp hs).1 z hzmem)
      · exact ih (List.pairwise_cons.mp hs).2 hz x hx2

theorem trackMin_sorted (c : TrackSample) (rest : List TrackSample)
    (hs : List.Pairwise (fun a b => a.t < b.t) (c :: rest)) :
    trackMin c rest = c.t :=
  foldl_min_eq rest c.t (fun x hx => le_of_lt ((List.pairwise_cons.mp hs).1 x hx))

theorem trackMax_sorted (c cN : TrackSample) (rest : List TrackSample)
    (hs : List.Pairwise (fun a b => a.t < b.t) (c :: rest))
    (hlast : (c :: rest).getLast? = some cN) :
    trackMax c rest = cN.t := by
  have hub : ∀ x ∈ c :: rest, x.t ≤ cN.t := pairwise_le_getLast _ _ hs hlast
  have hmem : cN ∈ c :: rest := mem_of_getLast?_some hlast
  apply le_antisymm
  · exact foldl_max_le rest c.t cN.t (hub c (List.mem_cons_self c rest))
      (fun x hx => hub x (List.mem_cons_of_mem c hx))
  · rcases List.mem_cons.mp hmem with h | h
    · rw [← h]
      exact base_le_foldl_max rest _
    · exact le_foldl_max_of_mem rest c.t cN h

theorem resample_interpolate_timestamps (step : ℤ) (c : TrackSample)
    (rest : List TrackSample) :
    (resample_interpolate step (c :: rest)).map Prod.fst
      = resampleIndex step (trackMin c rest) (trackMax c rest) := by
  unfold resample_interpolate
  rw [List.map_map]
  exact List.map_id _

/-- C2 (as stated, refuted): a two-sample track at 0.05 s and 0.25 s with the
0.1 s step resamples to the grid 0.0, 0.1, 0.2 s: the grid does not start at
the first input timestamp and contains a point before it, because pandas
floors the start of the grid to the bin anchored at the start of the day. -/
theorem c2_counterexample :
    (resample_interpolate 100000000
        [⟨50000000, 1, 1, 1⟩, ⟨250000000, 2, 2, 2⟩]).map Prod.fst
      = [0, 100000000, 200000000]
      ∧ (0:ℤ) ≠ 50000000 ∧ (0:ℤ) < 50000000 := by
  refine ⟨rfl, by decide, by decide⟩

/-- C2 (amended): for a track of at least two samples with strictly
increasing timestamps and a positive step, the dense track grid starts at the
first input timestamp rounded down to a multiple of the step (within one step
below it, and equal to it exactly when the first timestamp is aligned to the
step, as whole-second GPX times are for the 100 ms step); consecutive grid
timestamps differ by exactly the step; no grid timestamp exceeds the last
input timestamp; and the last grid timestamp lies within one step of the last
input timestamp. -/
theorem c2_grid_structure (step : ℤ) (c0 cN : TrackSample) (rest : List TrackSample)
    (hstep : 0 < step)
    (hsorted : List.Pairwise (fun a b => a.t < b.t) (c0 :: rest))
    (hlast : (c0 :: rest).getLast? = some cN) :
    ((resample_interpolate step (c0 :: rest)).map Prod.fst).head?
        = some (gridStart step c0.t)
      ∧ gridStart step c0.t ≤ c0.t ∧ c0.t - step < gridStart step c0.t
      ∧ List.Chain' (fun a b => b = a + step)
          ((resample_interpolate step (c0 :: rest)).map Prod.fst)
      ∧ (∀ g ∈ (resample_interpolate step (c0 :: rest)).map Prod.fst, g ≤ cN.t)
      ∧ (∃ gN, ((resample_interpolate step (c0 :: rest)).map Prod.fst).getLast? = some gN
          ∧ cN.t - step < gN)
      ∧ (c0.t % step = 0 →
          ((resample_interpolate step (c0 :: rest)).map Prod.fst).head? = some c0.t) := by
  rw [resample_interpolate_timestamps, trackMin_sorted c0 rest hsorted,
    trackMax_sorted c0 cN rest hsorted hlast]
  have hc0N : c0.t ≤ cN.t :=
    pairwise_le_getLast _ _ hsorted hlast c0 (List.mem_cons_self c0 rest)
  have hgs : gridStart step c0.t ≤ c0.t := gridStart_le step c0.t hstep
  have hspan : 0 ≤ cN.t - gridStart step c0.t := by linarith
  have hq0 : 0 ≤ (cN.t - gridStart step c0.t) / step :=
    Int.ediv_nonneg hspan (le_of_lt hstep)
  have htn : (((cN.t - gridStart step c0.t) / step).toNat : ℤ)
      = (cN.t - gridStart step c0.t) / step := Int.toNat_of_nonneg hq0
  have hdm := Int.ediv_add_emod (cN.t - gridStart step c0.t) step
  have hr0 : 0 ≤ (cN.t - gridStart step c0.t) % step :=
    Int.emod_nonneg _ (ne_of_gt hstep)
  have hrs : (cN.t - gridStart step c0.t) % step < step :=
    Int.emod_lt_of_pos _ hstep
  refine ⟨?_, hgs, ?_, ?_, ?_, ?_, ?_⟩
  · exact gridList_head _ _ _
  · have := lt_gridStart_add step c0.t hstep
    linarith
  · exact gridList_chain _ _ _
  · intro g hg
    rcases gridList_mem.mp hg with ⟨k, hk, rfl⟩
    have hk2 : (k : ℤ) ≤ (cN.t - gridStart step c0.t) / step := by
      have : (k : ℤ) ≤ (((cN.t - gridStart step c0.t) / step).toNat : ℤ) := by
        exact_mod_cast Nat.lt_succ_iff.mp hk
      linarith [htn]
    have : step * (k : ℤ) ≤ step * ((cN.t - gridStart step c0.t) / step) :=
      mul_le_mul_of_nonneg_left hk2 (le_of_lt hstep)
    linarith
  · refine ⟨gridStart step c0.t + step * ((cN.t - gridStart step c0.t) / step), ?_, ?_⟩
    · unfold resampleIndex
      rw [gridList_getLast, htn]
    · linarith
  · intro hal
    unfold resampleIndex
    rw [gridList_head, gridStart_of_aligned step c0.t hal]

/-- Witness for c2_grid_structure on the two-sample aligned track at 0 s and
0.25 s with the 0.1 s step. -/
theorem c2_grid_structure_witness :
    (0:ℤ) < 100000000
      ∧ List.Pairwise (fun a b => a.t < b.t)
          [(⟨0, 1, 1, 1⟩ : TrackSample), ⟨250000000, 2, 2, 2⟩]
      ∧ ([(⟨0, 1, 1, 1⟩ : TrackSample), ⟨250000000, 2, 2, 2⟩].getLast?
          = some ⟨250000000, 2, 2, 2⟩)
      ∧ (((resample_interpolate 100000000
            [⟨0, 1, 1, 1⟩, ⟨250000000, 2, 2, 2⟩]).map Prod.fst).head?
          = some (gridStart 100000000 (0:ℤ))
        ∧ gridStart 100000000 (0:ℤ) ≤ 0 ∧ (0:ℤ) - 100000000 < gridStart 100000000 0
        ∧ List.Chain' (fun a b => b = a + 100000000)
            ((resample_interpolate 100000000
              [⟨0, 1, 1, 1⟩, ⟨250000000, 2, 2, 2⟩]).map Prod.fst)
        ∧ (∀ g ∈ (resample_interpolate 100000000
              [⟨0, 1, 1, 1⟩, ⟨250000000, 2, 2, 2⟩]).map Prod.fst, g ≤ 250000000)
        ∧ (∃ gN, ((resample_interpolate 100000000
              [⟨0, 1, 1, 1⟩, ⟨250000000, 2, 2, 2⟩]).map Prod.fst).getLast? = some gN
            ∧ (250000000:ℤ) - 100000000 < gN)
        ∧ ((0:ℤ) % 100000000 = 0 →
            ((resample_interpolate 100000000
              [⟨0, 1, 1, 1⟩, ⟨250000000, 2, 2, 2⟩]).map Prod.fst).head? = some 0)) := by
  refine ⟨by decide, by decide, by decide, ?_⟩
  exact c2_grid_structure 100000000 ⟨0, 1, 1, 1⟩ ⟨250000000, 2, 2, 2⟩
    [⟨250000000, 2, 2, 2⟩] (by decide) (by decide) (by decide)

/-- C8 (as stated, refuted): a track consisting of one single sample does not
make resampling fail; it produces a one-point dense track carrying the sample
values, and the run continues. -/
theorem c8_counterexample :
    resample_interpolate 100000000 [⟨0, 1, 2, 3⟩] = [(0, some (1, 2, 3))] := rfl

/-- C8 (amended): the script performs no degenerate-track validation: a
single-sample track resamples without error to the one-point dense track at
its timestamp (when that timestamp is aligned to the step), and duplicate
timestamps are collapsed by read_gpx before resampling ever sees them, so a
zero time delta cannot reach the interpolation; no run is aborted. -/
theorem c8_single_sample_track (step : ℤ) (c : TrackSample)
    (hstep : 0 < step) (hal : c.t % step = 0) :
    resample_interpolate step [c] = [(c.t, some (c.lon, c.lat, c.elev))]
      ∧ ∀ d : TrackSample, d.t = c.t → read_gpx [c, d] = [d] := by
  constructor
  · show (resampleIndex step (trackMin c []) (trackMax c [])).map
        (fun g => (g, denseAt step [c] g)) = _
    have hmin : trackMin c [] = c.t := rfl
    have hmax : trackMax c [] = c.t := rfl
    rw [hmin, hmax]
    unfold resampleIndex
    rw [gridStart_of_aligned step c.t hal, sub_self, Int.zero_ediv]
    show [(c.t, denseAt step [c] c.t)] = _
    have hda : denseAt step [c] c.t = some (c.lon, c.lat, c.elev) := by
      unfold denseAt gridAnchors lastAnchorLE firstAnchorGE
      simp [hal, Int.dvd_of_emod_eq_zero hal]
    rw [hda]
  · intro d hd
    show locSet [c] d = [d]
    unfold locSet
    rw [if_pos hd.symm]

/-- Witness for c8_single_sample_track at the sample (0, 1, 2, 3) with the
0.1 s step. -/
theorem c8_single_sample_track_witness :
    (0:ℤ) < 100000000
      ∧ (⟨0, 1, 2, 3⟩ : TrackSample).t % 100000000 = 0
      ∧ (resample_interpolate 100000000 [(⟨0, 1, 2, 3⟩ : TrackSample)]
          = [(0, some (1, 2, 3))]
        ∧ ∀ d : TrackSample, d.t = (⟨0, 1, 2, 3⟩ : TrackSample).t
            → read_gpx [⟨0, 1, 2, 3⟩, d] = [d]) := by
  have h := c8_single_sample_track 100000000 ⟨0, 1, 2, 3⟩ (by decide) (by decide)
  exact ⟨by decide, by decide, h⟩

theorem lerp1_left (ta tb : ℤ) (va vb : ℚ) : lerp1 ta tb va vb ta = va := by
  unfold lerp1
  simp

theorem lerp1_right (ta tb : ℤ) (va vb : ℚ) (h : ta ≠ tb) :
    lerp1 ta tb va vb tb = vb := by
  unfold lerp1
  have hne : (tb : ℚ) - (ta : ℚ) ≠ 0 := by
    intro h0
    apply h
    have h1 : (ta : ℚ) = (tb : ℚ) := by linarith
    exact_mod_cast h1
  rw [div_self hne, mul_one]
  ring

theorem lerpSample_left (a b : TrackSample) :
    lerpSample a b a.t = (a.lon, a.lat, a.elev) := by
  unfold lerpSample
  rw [lerp1_left, lerp1_left, lerp1_left]

theorem lerpSample_right (a b : TrackSample) (h : a.t ≠ b.t) :
    lerpSample a b b.t = (b.lon, b.lat, b.elev) := by
  unfold lerpSample
  rw [lerp1_right _ _ _ _ h, lerp1_right _ _ _ _ h, lerp1_right _ _ _ _ h]

theorem gridAnchors_of_aligned (step : ℤ) (cs : List TrackSample)
    (h : ∀ c ∈ cs, c.t % step = 0) : gridAnchors step cs = cs := by
  unfold gridAnchors
  rw [List.filter_eq_self]
  intro c hc
  simpa using h c hc

theorem filter_le_getLast_eq (l : List TrackSample) (g : ℤ) (a : TrackSample)
    (hs : List.Pairwise (fun x y => x.t < y.t) l)
    (ha : a ∈ l) (hag : a.t ≤ g)
    (hmax : ∀ x ∈ l, x.t ≤ g → x.t ≤ a.t) :
    (l.filter (fun c => decide (c.t ≤ g))).getLast? = some a := by
  induction l with
  | nil => cases ha
  | cons h tl ih =>
    rcases List.mem_cons.mp ha with rfl | hatl
    · have hnone : tl.filter (fun c => decide (c.t ≤ g)) = [] := by
        rw [List.filter_eq_nil_iff]
        intro x hx
        simp only [decide_eq_true_eq]
        intro hxg
        have h1 : a.t < x.t := (List.pairwise_cons.mp hs).1 x hx
        have h2 : x.t ≤ a.t := hmax x (List.mem_cons_of_mem _ hx) hxg
        exact absurd h1 (not_lt.mpr h2)
      rw [List.filter_cons_of_pos (by simpa using hag), hnone]
      rfl
    · have hh : h.t ≤ g :=
        le_trans (le_of_lt ((List.pairwise_cons.mp hs).1 a hatl)) hag
      rw [List.filter_cons_of_pos (by simpa using hh)]
      have hne : tl.filter (fun c => decide (c.t ≤ g)) ≠ [] := by
        intro hempty
        have h3 := List.filter_eq_nil_iff.mp hempty a hatl
        simp [hag] at h3
      cases hft : tl.filter (fun c => decide (c.t ≤ g)) with
      | nil => exact absurd hft hne
      | cons y ys =>
        rw [List.getLast?_cons_cons, ← hft]
        exact ih (List.pairwise_cons.mp hs).2 hatl
          (fun x hx hxg => hmax x (List.mem_cons_of_mem _ hx) hxg)

theorem filter_ge_head_eq (l : List TrackSample) (g : ℤ) (b : TrackSample)
    (hs : List.Pairwise (fun x y => x.t < y.t) l)
    (hb : b ∈ l) (hbg : g ≤ b.t)
    (hmin : ∀ x ∈ l, g ≤ x.t → b.t ≤ x.t) :
    (l.filter (fun c => decide (g ≤ c.t))).head? = some b := by
  induction l with
  | nil => cases hb
  | cons h tl ih =>
    rcases List.mem_cons.mp hb with rfl | hbtl
    · rw [List.filter_cons_of_pos (by simpa using hbg)]
      rfl
    · have hh : ¬ (g ≤ h.t) := by
        intro hgh
        have h1 := hmin h (List.mem_cons_self h tl) hgh
        have h2 : h.t < b.t := (List.pairwise_cons.mp hs).1 b hbtl
        exact absurd h2 (not_lt.mpr h1)
      rw [List.filter_cons_of_neg (by simpa using hh)]
      exact ih (List.pairwise_cons.mp hs).2 hbtl
        (fun x hx => hmin x (List.mem_cons_of_mem _ hx))

theorem denseAt_eq (step : ℤ) (cs : List TrackSample) (g : ℤ) (a b : TrackSample)
    (hl : lastAnchorLE (gridAnchors step cs) g = some a)
    (hf : firstAnchorGE (gridAnchors step cs) g = some b) :
    denseAt step cs g
      = if a.t = g then some (a.lon, a.lat, a.elev)
        else if b.t = g then some (b.lon, b.lat, b.elev)
        else some (lerpSample a b g) := by
  unfold denseAt
  rw [hl, hf]

/-- C3 (as stated, refuted): samples at 0 s (value 0), 0.05 s (value 100) and
0.2 s (value 100) with the 0.1 s step: the dense track value at grid
timestamp 0.1 s is 50, because the 0.05 s sample is not on the grid and is
dropped by the reindexing before interpolation; linear interpolation between
the bracketing input samples (at 0.05 s and 0.2 s, both value 100) would give
100. -/
theorem c3_counterexample :
    (resample_interpolate 100000000
        [⟨0, 0, 0, 0⟩, ⟨50000000, 100, 100, 100⟩, ⟨200000000, 100, 100, 100⟩]).get? 1
      = some (100000000, some (50, 50, 50))
      ∧ lerpSample ⟨50000000, 100, 100, 100⟩ ⟨200000000, 100, 100, 100⟩ 100000000
        = (100, 100, 100)
      ∧ ((50:ℚ), (50:ℚ), (50:ℚ)) ≠ ((100:ℚ), (100:ℚ), (100:ℚ)) := by
  refine ⟨?_, ?_, by norm_num⟩
  · have h1 : (resample_interpolate 100000000
        [⟨0, 0, 0, 0⟩, ⟨50000000, 100, 100, 100⟩, ⟨200000000, 100, 100, 100⟩]).get? 1
        = some (100000000,
            denseAt 100000000
              [⟨0, 0, 0, 0⟩, ⟨50000000, 100, 100, 100⟩, ⟨200000000, 100, 100, 100⟩]
              100000000) := rfl
    have h2 : denseAt 100000000
        [⟨0, 0, 0, 0⟩, ⟨50000000, 100, 100, 100⟩, ⟨200000000, 100, 100, 100⟩] 100000000
        = some (lerpSample ⟨0, 0, 0, 0⟩ ⟨200000000, 100, 100, 100⟩ 100000000) := rfl
    rw [h1, h2]
    norm_num [lerpSample, lerp1]
  · norm_num [lerpSample, lerp1]

/-- C3 (amended): when every input timestamp lies on the resampling grid (is
a multiple of the step), the dense track is exact linear interpolation: for a
grid timestamp g bracketed by consecutive input samples a and b, the value at
g is each coordinate interpolated linearly in time between a and b, and the
value at any sample timestamp is exactly that sample's values.  When a sample
is off the grid it is dropped and the interpolation silently bridges its
neighbours, as the counterexample shows. -/
theorem c3_interpolation (step : ℤ) (l1 l2 : List TrackSample)
    (a b : TrackSample) (g : ℤ)
    (hsorted : List.Pairwise (fun x y => x.t < y.t) (l1 ++ a :: b :: l2))
    (haligned : ∀ c ∈ l1 ++ a :: b :: l2, c.t % step = 0)
    (hgal : g % step = 0)
    (hga : a.t ≤ g) (hgb : g ≤ b.t) :
    denseAt step (l1 ++ a :: b :: l2) g = some (lerpSample a b g)
      ∧ ∀ c ∈ l1 ++ a :: b :: l2,
          denseAt step (l1 ++ a :: b :: l2) c.t = some (c.lon, c.lat, c.elev) := by
  have hanch : gridAnchors step (l1 ++ a :: b :: l2) = l1 ++ a :: b :: l2 :=
    gridAnchors_of_aligned step _ haligned
  obtain ⟨hp1, hp2, hcross⟩ := List.pairwise_append.mp hsorted
  have hab : a.t < b.t := (List.pairwise_cons.mp hp2).1 b (List.mem_cons_self b l2)
  have hbl2 : ∀ x ∈ l2, b.t < x.t :=
    fun x hx => (List.pairwise_cons.mp (List.pairwise_cons.mp hp2).2).1 x hx
  have hamem : a ∈ l1 ++ a :: b :: l2 :=
    List.mem_append_right _ (List.mem_cons_self a _)
  have hbmem : b ∈ l1 ++ a :: b :: l2 :=
    List.mem_append_right _ (List.mem_cons_of_mem a (List.mem_cons_self b _))
  constructor
  · by_cases hgb2 : g = b.t
    · have hlast : lastAnchorLE (gridAnchors step (l1 ++ a :: b :: l2)) g = some b := by
        rw [hanch]
        exact filter_le_getLast_eq _ g b hsorted hbmem (hgb2 ▸ le_refl g)
          (fun x _ hxg => hgb2 ▸ hxg)
      have hfirst : firstAnchorGE (gridAnchors step (l1 ++ a :: b :: l2)) g = some b := by
        rw [hanch]
        exact filter_ge_head_eq _ g b hsorted hbmem hgb (fun x _ hgx => hgb2 ▸ hgx)
      rw [denseAt_eq step _ g b b hlast hfirst, if_pos hgb2.symm, hgb2,
        lerpSample_right a b (ne_of_lt hab)]
    · have hgltb : g < b.t := lt_of_le_of_ne hgb hgb2
      have hlast : lastAnchorLE (gridAnchors step (l1 ++ a :: b :: l2)) g = some a := by
        rw [hanch]
        refine filter_le_getLast_eq _ g a hsorted hamem hga ?_
        intro x hx hxg
        rcases List.mem_append.mp hx with hx1 | hx2
        · exact le_of_lt (hcross x hx1 a (List.mem_cons_self a _))
        · rcases List.mem_cons.mp hx2 with rfl | hx3
          · exact le_refl _
          · rcases List.mem_cons.mp hx3 with rfl | hx4
            · exact absurd hxg (not_le.mpr hgltb)
            · exact absurd hxg (not_le.mpr (lt_trans hgltb (hbl2 x hx4)))
      by_cases hga2 : a.t = g
      · have hfirst : firstAnchorGE (gridAnchors step (l1 ++ a :: b :: l2)) g
            = some a := by
          rw [hanch]
          exact filter_ge_head_eq _ g a hsorted hamem (hga2 ▸ le_refl a.t)
            (fun x _ hgx => hga2 ▸ hgx)
        rw [denseAt_eq step _ g a a hlast hfirst, if_pos hga2, ← hga2, lerpSample_left a b]
      · have hfirst : firstAnchorGE (gridAnchors step (l1 ++ a :: b :: l2)) g
            = some b := by
          rw [hanch]
          refine filter_ge_head_eq _ g b hsorted hbmem (le_of_lt hgltb) ?_
          intro x hx hgx
          rcases List.mem_append.mp hx with hx1 | hx2
          · have h1 : x.t < a.t := hcross x hx1 a (List.mem_cons_self a _)
            have h2 : a.t < g := lt_of_le_of_ne hga hga2
            exact absurd hgx (not_le.mpr (lt_trans h1 h2))
          · rcases List.mem_cons.mp hx2 with rfl | hx3
            · exact absurd hgx (not_le.mpr (lt_of_le_of_ne hga hga2))
            · rcases List.mem_cons.mp hx3 with rfl | hx4
              · exact le_refl _
              · exact le_of_lt (hbl2 x hx4)
        rw [denseAt_eq step _ g a b hlast hfirst, if_neg hga2,
          if_neg (fun h => hgb2 h.symm)]
  · intro c hc
    have hlast : lastAnchorLE (gridAnchors step (l1 ++ a :: b :: l2)) c.t = some c := by
      rw [hanch]
      exact filter_le_getLast_eq _ c.t c hsorted hc (le_refl _) (fun x _ hxg => hxg)
    have hfirst : firstAnchorGE (gridAnchors step (l1 ++ a :: b :: l2)) c.t = some c := by
      rw [hanch]
      exact filter_ge_head_eq _ c.t c hsorted hc (le_refl _) (fun x _ hgx => hgx)
    rw [denseAt_eq step _ c.t c c hlast hfirst, if_pos rfl]

/-- Witness for c3_interpolation: the design document example, two samples at
times 0 and 10 with longitudes 10 and 20 and step 5: the dense value at time
5 is the interpolant, which evaluates to longitude 15. -/
theorem c3_interpolation_witness :
    List.Pairwise (fun x y => x.t < y.t)
        ([] ++ (⟨0, 10, 10, 10⟩ : TrackSample) :: ⟨10, 20, 20, 20⟩ :: [])
      ∧ (∀ c ∈ [] ++ (⟨0, 10, 10, 10⟩ : TrackSample) :: ⟨10, 20, 20, 20⟩ :: [],
          c.t % 5 = 0)
      ∧ (5:ℤ) % 5 = 0 ∧ ((⟨0, 10, 10, 10⟩ : TrackSample)).t ≤ 5
      ∧ (5:ℤ) ≤ ((⟨10, 20, 20, 20⟩ : TrackSample)).t
      ∧ (denseAt 5 ([] ++ (⟨0, 10, 10, 10⟩ : TrackSample) :: ⟨10, 20, 20, 20⟩ :: []) 5
          = some (lerpSample ⟨0, 10, 10, 10⟩ ⟨10, 20, 20, 20⟩ 5)
        ∧ ∀ c ∈ [] ++ (⟨0, 10, 10, 10⟩ : TrackSample) :: ⟨10, 20, 20, 20⟩ :: [],
            denseAt 5 ([] ++ (⟨0, 10, 10, 10⟩ : TrackSample) :: ⟨10, 20, 20, 20⟩ :: []) c.t
              = some (c.lon, c.lat, c.elev))
      ∧ lerpSample ⟨0, 10, 10, 10⟩ ⟨10, 20, 20, 20⟩ 5 = (15, 15, 15) := by
  refine ⟨?_, ?_, by decide, by decide, by decide, ?_, ?_⟩
  · decide
  · decide
  · exact c3_interpolation 5 [] [] ⟨0, 10, 10, 10⟩ ⟨10, 20, 20, 20⟩ 5
      (by decide) (by decide) (by decide) (by decide) (by decide)
  · norm_num [lerpSample, lerp1]

/-- Lines 148 to 153 of main: the destination photo series after swapping
index and data and subtracting the clock offset: entries of
(corrected timestamp, photo filename). -/
def correctPhotos (offset : ℤ) (photos : List (ℤ × String)) : List (ℤ × String) :=
  photos.map (fun p => (p.1 - offset, p.2))

/-- Line 159 of main: coords["photo"] = destination_cam_times.  Assigning a
series to a dataframe column aligns by exact index equality: the photo cell
of the grid row at timestamp g is the name of the photo whose corrected
timestamp equals g exactly, if any; series entries whose timestamp is not a
grid timestamp are silently dropped. -/
def matchPhoto (photos : List (ℤ × String)) (g : ℤ) : Option String :=
  (photos.find? (fun p => decide (p.1 = g))).map Prod.snd

/-- Line 162 of main: coords.dropna().to_csv(...): the exported table keeps
exactly the grid rows having both interpolated values and a matched photo. -/
def outputTable (dense : List (ℤ × Option (ℚ × ℚ × ℚ)))
    (photos : List (ℤ × String)) : List (ℤ × (ℚ × ℚ × ℚ) × String) :=
  dense.filterMap (fun gv =>
    match gv.2, matchPhoto photos gv.1 with
    | some v, some nm => some (gv.1, v, nm)
    | _, _ => none)

theorem mem_outputTable {dense : List (ℤ × Option (ℚ × ℚ × ℚ))}
    {photos : List (ℤ × String)} {g : ℤ} {v : ℚ × ℚ × ℚ} {nm : String}
    (h : (g, v, nm) ∈ outputTable dense photos) :
    (g, nm) ∈ photos ∧ (g, some v) ∈ dense := by
  unfold outputTable at h
  rcases List.mem_filterMap.mp h with ⟨gv, hgv, heq⟩
  rcases gv with ⟨g0, v0⟩
  cases hv : v0 with
  | none =>
    rw [hv] at heq
    cases heq
  | some v1 =>
    rw [hv] at heq
    cases hmp : matchPhoto photos g0 with
    | none =>
      rw [hmp] at heq
      cases heq
    | some nm1 =>
      rw [hmp] at heq
      simp only [Option.some.injEq, Prod.mk.injEq] at heq
      obtain ⟨rfl, rfl, rfl⟩ := heq
      constructor
      · unfold matchPhoto at hmp
        rcases Option.map_eq_some'.mp hmp with ⟨p, hfind, hsnd⟩
        have hpm : p ∈ photos := List.mem_of_find?_eq_some hfind
        have hpt : p.1 = g0 := by
          have := List.find?_some hfind
          simpa using this
        have : p = (g0, nm1) := by
          rcases p with ⟨p1, p2⟩
          simp only at hpt hsnd
          rw [hpt, hsnd]
        rw [← this]
        exact hpm
      · rw [hv] at hgv
        exact hgv

/-- C4 (as stated, refuted): the dense track over samples at 0 s and 0.2 s
with the 0.1 s step, and one photograph with corrected timestamp 0.05 s:
the timestamp lies strictly inside the track range but on no grid cell, and
the photograph is assigned no coordinate at all (the output table is empty);
there is no nearest-neighbour fallback. -/
theorem c4_counterexample :
    outputTable (resample_interpolate 100000000 [⟨0, 1, 1, 1⟩, ⟨200000000, 2, 2, 2⟩])
        [(50000000, "p")] = []
      ∧ ((resample_interpolate 100000000 [⟨0, 1, 1, 1⟩, ⟨200000000, 2, 2, 2⟩]).map
          Prod.fst) = [0, 100000000, 200000000]
      ∧ (0:ℤ) < 50000000 ∧ (50000000:ℤ) < 200000000
      ∧ (50000000:ℤ) ∉ [(0:ℤ), 100000000, 200000000] :=
  ⟨rfl, rfl, by decide, by decide, by decide⟩

/-- C4 (amended): the matcher has no rounding step and no nearest-neighbour
fallback: a coordinate is assigned to a photograph only by exact equality of
its corrected timestamp with a dense track timestamp, and every row of the
output table arises from such an exact match. -/
theorem c4_exact_match_only (dense : List (ℤ × Option (ℚ × ℚ × ℚ)))
    (photos : List (ℤ × String)) (g : ℤ) (v : ℚ × ℚ × ℚ) (nm : String)
    (h : (g, v, nm) ∈ outputTable dense photos) :
    (g, nm) ∈ photos ∧ (g, some v) ∈ dense :=
  mem_outputTable h

/-- Witness for c4_exact_match_only on a one-row table. -/
theorem c4_exact_match_only_witness :
    ((0:ℤ), ((1:ℚ), (2:ℚ), (3:ℚ)), "p") ∈ outputTable [(0, some (1, 2, 3))] [(0, "p")]
      ∧ ((0:ℤ), "p") ∈ [((0:ℤ), "p")]
      ∧ ((0:ℤ), some ((1:ℚ), (2:ℚ), (3:ℚ))) ∈ [((0:ℤ), some ((1:ℚ), (2:ℚ), (3:ℚ)))] := by
  refine ⟨by decide, ?_⟩
  exact c4_exact_match_only [(0, some (1, 2, 3))] [(0, "p")] 0 (1, 2, 3) "p" (by decide)

theorem gridList_mem_bounds {s step x : ℤ} {n : ℕ} (hstep : 0 ≤ step)
    (hx : x ∈ gridList s step (n + 1)) :
    s ≤ x ∧ x ≤ s + step * n := by
  rcases gridList_mem.mp hx with ⟨k, hk, rfl⟩
  have hk2 : (k:ℤ) ≤ (n:ℤ) := by exact_mod_cast Nat.lt_succ_iff.mp hk
  have hk0 : (0:ℤ) ≤ (k:ℤ) := Int.ofNat_nonneg k
  constructor
  · nlinarith
  · nlinarith

/-- C6: a photograph whose corrected timestamp (raw camera time minus clock
offset) lies strictly outside the closed interval spanned by the dense track
timestamps is never assigned a coordinate: it appears in no row of the
exported coordinate table (the filename is assumed to occur once among the
destination photos, as filenames of one folder are unique). -/
theorem c6_out_of_range_unmatched (step offset traw : ℤ) (nm : String)
    (c0 : TrackSample) (rest : List TrackSample) (photos : List (ℤ × String))
    (g0 gN : ℤ)
    (hstep : 0 < step)
    (hmem : (traw, nm) ∈ photos)
    (huniq : ∀ p ∈ photos, p.2 = nm → p.1 = traw)
    (hhead : ((resample_interpolate step (c0 :: rest)).map Prod.fst).head? = some g0)
    (hlastg : ((resample_interpolate step (c0 :: rest)).map Prod.fst).getLast? = some gN)
    (hout : traw - offset < g0 ∨ gN < traw - offset) :
    ∀ r ∈ outputTable (resample_interpolate step (c0 :: rest))
        (correctPhotos offset photos), r.2.2 ≠ nm := by
  intro r hr hrnm
  rcases r with ⟨g, v, nm2⟩
  have hrn : nm2 = nm := hrnm
  obtain ⟨hph, hdense⟩ := mem_outputTable hr
  unfold correctPhotos at hph
  rcases List.mem_map.mp hph with ⟨p, hp, hpe⟩
  have h1 : p.1 - offset = g := congrArg Prod.fst hpe
  have h2 : p.2 = nm2 := congrArg Prod.snd hpe
  have h3 : p.1 = traw := huniq p hp (h2.trans hrn)
  have hg : g ∈ (resample_interpolate step (c0 :: rest)).map Prod.fst := by
    have := List.mem_map_of_mem Prod.fst hdense
    exact this
  rw [resample_interpolate_timestamps] at hg hhead hlastg
  unfold resampleIndex at hg hhead hlastg
  rw [gridList_head] at hhead
  rw [gridList_getLast] at hlastg
  have hg0 : gridStart step (trackMin c0 rest) = g0 := Option.some.inj hhead
  have hgN : gridStart step (trackMin c0 rest)
      + step * (((trackMax c0 rest - gridStart step (trackMin c0 rest)) / step).toNat : ℤ)
      = gN := Option.some.inj hlastg
  obtain ⟨hb1, hb2⟩ := gridList_mem_bounds (le_of_lt hstep) hg
  rcases hout with hout1 | hout1
  · rw [← h1, h3] at hb1
    rw [hg0] at hb1
    linarith
  · rw [← h1, h3] at hb2
    rw [hgN] at hb2
    linarith

/-- Witness for c6_out_of_range_unmatched: a photo taken at 0.5 s with zero
offset against a track covering 0 s to 0.2 s. -/
theorem c6_out_of_range_unmatched_witness :
    (0:ℤ) < 100000000
      ∧ ((500000000:ℤ), "p") ∈ [((500000000:ℤ), "p")]
      ∧ (∀ p ∈ [((500000000:ℤ), "p")], p.2 = "p" → p.1 = 500000000)
      ∧ ((resample_interpolate 100000000
          [⟨0, 1, 1, 1⟩, ⟨200000000, 2, 2, 2⟩]).map Prod.fst).head? = some 0
      ∧ ((resample_interpolate 100000000
          [⟨0, 1, 1, 1⟩, ⟨200000000, 2, 2, 2⟩]).map Prod.fst).getLast? = some 200000000
      ∧ ((500000000:ℤ) - 0 < 0 ∨ (200000000:ℤ) < 500000000 - 0)
      ∧ ∀ r ∈ outputTable (resample_interpolate 100000000
            [⟨0, 1, 1, 1⟩, ⟨200000000, 2, 2, 2⟩])
          (correctPhotos 0 [(500000000, "p")]), r.2.2 ≠ "p" := by
  refine ⟨by decide, by decide, by decide, rfl, rfl, by decide, ?_⟩
  exact c6_out_of_range_unmatched 100000000 0 500000000 "p" ⟨0, 1, 1, 1⟩
    [⟨200000000, 2, 2, 2⟩] [(500000000, "p")] 0 200000000
    (by decide) (by decide) (by decide) rfl rfl (by decide)

/-- The recognised image suffixes, lines 19 and 20 of georeference.py: the
raw suffix NEF followed by the other suffixes, in the order the Python list
concatenation produces. -/
def validSuffixes : List (List Char) :=
  [['N', 'E', 'F'], ['j', 'p', 'g'], ['J', 'P', 'G'], ['j', 'p', 'e', 'g'],
    ['t', 'i', 'f', 'f'], ['t', 'i', 'f']]

/-- Python str.split on the dot character, accumulator form. -/
def splitDotAux : List Char → List Char → List (List Char)
  | [], acc => [acc.reverse]
  | c :: cs, acc =>
    if c = '.' then acc.reverse :: splitDotAux cs [] else splitDotAux cs (c :: acc)

/-- filename.split(".") of Python. -/
def splitDot (s : List Char) : List (List Char) := splitDotAux s []

/-- check_if_valid_filename, lines 23 to 32 of georeference.py: the filename
must contain a dot and its part after the last dot must be one of the
recognised case-sensitive suffixes. -/
def check_if_valid_filename (filename : String) : Bool :=
  let parts := splitDot filename.data
  if parts.length < 2 then false
  else validSuffixes.contains (parts.getLastD [])

/-- Python str.replace with a nonempty pattern and empty replacement: remove
every left-to-right non-overlapping occurrence of pat.  The fuel argument is
initialised to the length of the string, which bounds the number of steps, so
the recursion is structural. -/
def removeAllAux (pat : List Char) : ℕ → List Char → List Char
  | _, [] => []
  | 0, s => s
  | fuel + 1, c :: cs =>
    if pat ≠ [] ∧ pat.isPrefixOf (c :: cs) then
      removeAllAux pat fuel ((c :: cs).drop pat.length)
    else c :: removeAllAux pat fuel cs

/-- file.replace("." + suffix, "") of line 133 of georeference.py, where
suffix is the part of the filename after its last dot. -/
def fileKey (file : String) : List Char :=
  removeAllAux ('.' :: (splitDot file.data).getLastD []) file.data.length file.data

/-- Python substring containment: needle in hay. -/
def strContains (hay needle : List Char) : Bool :=
  hay.tails.any (fun t => needle.isPrefixOf t)

/-- One row of the candidate coordinate table cam_coords of georeference
(line 120, coords.dropna()): timestamp, the three coordinates and the photo
filename. -/
structure CoordRow where
  t : ℤ
  lon : ℚ
  lat : ℚ
  elev : ℚ
  photo : String
deriving DecidableEq

/-- Lines 132 and 133 of georeference.py: the inner loop over
cam_coords.iterrows() stops at the first row whose photo field contains the
filename minus its suffix as a substring. -/
def findMatch (key : List Char) (rows : List CoordRow) : Option CoordRow :=
  rows.find? (fun r => strContains r.photo.data key)

/-- One iteration of the file loop of georeference, lines 122 to 139: with
the current candidate rows and the coord variable left over from the previous
iteration, process one valid file, giving the updated rows and the
coordinate that exiftool writes to the file.  When the match loop finds a
row, that row is written and dropped from the candidates; when it finds none
the loop still leaves the coord variable bound to the last row it iterated
over (the last remaining candidate); with no candidates the variable keeps
whatever the previous file left in it, and with no previous binding either,
the Python NameError aborts the run. -/
def georefStep (rows : List CoordRow) (coord : Option (ℚ × ℚ × ℚ)) (file : String) :
    Except GeoErr (List CoordRow × (ℚ × ℚ × ℚ)) :=
  match findMatch (fileKey file) rows with
  | some r => Except.ok (rows.erase r, (r.lon, r.lat, r.elev))
  | none =>
    match rows.getLast? with
    | some r => Except.ok (rows, (r.lon, r.lat, r.elev))
    | none =>
      match coord with
      | some c => Except.ok (rows, c)
      | none => Except.error GeoErr.unboundCoordinate

/-- The file loop of georeference over the directory listing, skipping
filenames that are not valid image names; returns the (file, coordinate)
writes that exiftool performs, in order. -/
def georefLoop (rows : List CoordRow) (coord : Option (ℚ × ℚ × ℚ)) :
    List String → Except GeoErr (List (String × (ℚ × ℚ × ℚ)))
  | [] => Except.ok []
  | f :: fs =>
    if check_if_valid_filename f then
      match georefStep rows coord f with
      | Except.error e => Except.error e
      | Except.ok (rows2, c) =>
        (georefLoop rows2 (some c) fs).map (fun ws => (f, c) :: ws)
    else georefLoop rows coord fs

/-- georeference, lines 116 to 139 of georeference.py: run the file loop on
the candidate table with the coord variable initially unbound. -/
def georeference (rows : List CoordRow) (files : List String) :
    Except GeoErr (List (String × (ℚ × ℚ × ℚ))) :=
  georefLoop rows none files

/-- C5 (code evaluated at the failing input): a destination folder with the
single valid file b.jpg whose name matches no row of the candidate table
(for instance because its corrected timestamp fell outside the track range,
so it is in no row): the metadata writer is still invoked for it, writing the
coordinate of the leftover candidate row. -/
theorem c5_write_invoked_for_unmatched :
    findMatch (fileKey "b.jpg") [⟨0, 1, 2, 3, "a"⟩] = none
      ∧ georeference [⟨0, 1, 2, 3, "a"⟩] ["b.jpg"]
        = Except.ok [("b.jpg", (1, 2, 3))] :=
  ⟨rfl, rfl⟩

/-- C10 (as stated, refuted): with candidate rows for photos a and b, the
valid file c.jpg matches no row; the coordinate written to it is that of the
last remaining candidate row (photo b), not the coordinate retained from the
most recent previously matched file (photo a, written to a.jpg), and when the
first valid file matches no candidate the run does not fail: it writes the
last candidate row. -/
theorem c10_counterexample :
    georeference [⟨0, 1, 1, 1, "a"⟩, ⟨10, 2, 2, 2, "b"⟩] ["a.jpg", "c.jpg"]
        = Except.ok [("a.jpg", (1, 1, 1)), ("c.jpg", (2, 2, 2))]
      ∧ georeference [⟨0, 1, 1, 1, "a"⟩, ⟨10, 2, 2, 2, "b"⟩] ["c.jpg"]
        = Except.ok [("c.jpg", (2, 2, 2))]
      ∧ ((2:ℚ), (2:ℚ), (2:ℚ)) ≠ ((1:ℚ), (1:ℚ), (1:ℚ)) :=
  ⟨rfl, rfl, by decide⟩

/-- C10 (amended): for a valid image file that matches no row of the
remaining candidate table, the write step is not skipped: when the table is
non-empty the coordinate of its last row is written (no failure even when no
file was matched before); the run fails with the unbound coord NameError only
when the candidate table is empty and no previous file bound the variable. -/
theorem c10_unmatched_write (rows : List CoordRow) (f : String)
    (hval : check_if_valid_filename f = true)
    (hnomatch : findMatch (fileKey f) rows = none) :
    (∀ r, rows.getLast? = some r
        → georeference rows [f] = Except.ok [(f, (r.lon, r.lat, r.elev))])
      ∧ (rows.getLast? = none
        → georeference rows [f] = Except.error GeoErr.unboundCoordinate) := by
  constructor
  · intro r hr
    unfold georeference georefLoop
    rw [if_pos hval]
    unfold georefStep
    rw [hnomatch, hr]
    rfl
  · intro hr
    unfold georeference georefLoop
    rw [if_pos hval]
    unfold georefStep
    rw [hnomatch, hr]

/-- Witness for c10_unmatched_write: one candidate row for photo a and the
unmatched valid file b.jpg. -/
theorem c10_unmatched_write_witness :
    check_if_valid_filename "b.jpg" = true
      ∧ findMatch (fileKey "b.jpg") [⟨0, 1, 2, 3, "a"⟩] = none
      ∧ ((∀ r, [(⟨0, 1, 2, 3, "a"⟩ : CoordRow)].getLast? = some r
          → georeference [⟨0, 1, 2, 3, "a"⟩] ["b.jpg"]
            = Except.ok [("b.jpg", (r.lon, r.lat, r.elev))])
        ∧ ([(⟨0, 1, 2, 3, "a"⟩ : CoordRow)].getLast? = none
          → georeference [⟨0, 1, 2, 3, "a"⟩] ["b.jpg"]
            = Except.error GeoErr.unboundCoordinate)) := by
  refine ⟨rfl, rfl, ?_⟩
  exact c10_unmatched_write [⟨0, 1, 2, 3, "a"⟩] "b.jpg" rfl rfl
